import Mathlib

/-
Shallow embedding of src/src/examples/kinematics.cpp: the measurement
ingestion and dispatch loop of the contact-aided InEKF example.

Numeric tokens (C++ double via stod) are modelled as rationals; stoi's
truncation of a numeric value toward zero is ratTrunc; the C++
bool(double) conversion is (value is nonzero).  The estimator (InEKF) is
external: its invocations are recorded as an abstract call trace.
-/

namespace KinDriver

/-- DT_MIN from kinematics.cpp line 23: `#define DT_MIN 1e-6`. -/
def DT_MIN : ℚ := 1 / 1000000

/-- DT_MAX from kinematics.cpp line 24: `#define DT_MAX 1`. -/
def DT_MAX : ℚ := 1

/-- C++ `stoi` applied to a numeric token: truncation toward zero. -/
def ratTrunc (q : ℚ) : ℤ := if 0 ≤ q then Int.floor q else Int.ceil q

/-- The 6-vector `imu_measurement` (lines 82-87), viewed with its
positional meaning: entries 0-2 angular velocity, entries 3-5 linear
acceleration. -/
structure ImuSample where
  angularVelocity : Fin 3 → ℚ
  linearAcceleration : Fin 3 → ℚ
deriving DecidableEq

/-- `Eigen::Matrix<double,6,1>::Zero()` (lines 67-68). -/
def zeroImu : ImuSample := ⟨![0, 0, 0], ![0, 0, 0]⟩

/-- A parsed quaternion, components in Eigen constructor order (w,x,y,z)
(line 125). -/
structure QuatQ where
  w : ℚ
  x : ℚ
  y : ℚ
  z : ℚ
deriving DecidableEq

/-- One kinematic entry: body id, raw quaternion, position, 6x6
covariance (lines 123-135). -/
structure KinEntry where
  bodyId : ℤ
  q : QuatQ
  p : Fin 3 → ℚ
  cov : Fin 6 → Fin 6 → ℚ
deriving DecidableEq

/-- `measurement[i]` style indexing into the numeric payload; in-range
under the arity guards of the parse functions. -/
def tok (m : List ℚ) (i : ℕ) : ℚ := m.getD i 0

/-- One iteration of the KINEMATIC read loop (lines 123-135), starting
at payload index i: id at i, quaternion at i+1..i+4 in (w,x,y,z) order,
position at i+5..i+7, covariance entry (j,k) at i+8 + j*6 + k. -/
def kinEntry (m : List ℚ) (i : ℕ) : KinEntry :=
  { bodyId := ratTrunc (tok m i)
  , q := ⟨tok m (i + 1), tok m (i + 2), tok m (i + 3), tok m (i + 4)⟩
  , p := ![tok m (i + 5), tok m (i + 6), tok m (i + 7)]
  , cov := fun j k => tok m (i + 8 + j.1 * 6 + k.1) }

/-- The KINEMATIC loop `for (i=2; i<size; i+=44)` (line 123), with n
remaining iterations, over payload indices. -/
def kinLoop (m : List ℚ) : ℕ → ℕ → List KinEntry
  | 0, _ => []
  | n + 1, i => kinEntry m i :: kinLoop m n (i + 44)

/-- Error taxonomy of spec section 7 for the crash-on-violation asserts
and numeric conversions of the source. -/
inductive ParseErr where
  | malformedRecord
  | numericParse
deriving DecidableEq

/-- IMU branch parsing (lines 77-87): tokens after the tag must be a
timestamp plus exactly 6 payload values (`assert((measurement.size()-2)
== 6)`); the 6 values fill the imu vector positionally. -/
def parseIMU (toks : List ℚ) : Except ParseErr (ℚ × ImuSample) :=
  match toks with
  | [tc, a0, a1, a2, a3, a4, a5] => .ok (tc, ⟨![a0, a1, a2], ![a3, a4, a5]⟩)
  | _ => .error .malformedRecord

/-- The CONTACT read loop (lines 104-108): consecutive (id, indicator)
pairs, indicator true iff the value is nonzero (C++ `bool(stod(...))`). -/
def contactPairs : List ℚ → List (ℤ × Bool)
  | cid :: ind :: rest => (ratTrunc cid, decide (ind ≠ 0)) :: contactPairs rest
  | _ => []

/-- CONTACT branch parsing (lines 96-108): even payload length required
(`assert((measurement.size()-2)%2 == 0)`; a lone tag fails too, since
the C++ size_t subtraction makes size()-2 odd there). -/
def parseCONTACT (toks : List ℚ) : Except ParseErr (ℚ × List (ℤ × Bool)) :=
  match toks with
  | [] => .error .malformedRecord
  | tc :: payload =>
      if payload.length % 2 = 0 then .ok (tc, contactPairs payload)
      else .error .malformedRecord

/-- KINEMATIC branch parsing (lines 112-136): payload length divisible
by 44 required (`assert((measurement.size()-2)%44 == 0)`; a lone tag
fails, as the size_t value 2^64-1 is not a multiple of 44). -/
def parseKINEMATIC (toks : List ℚ) : Except ParseErr (ℚ × List KinEntry) :=
  match toks with
  | [] => .error .malformedRecord
  | tc :: payload =>
      if payload.length % 44 = 0 then
        .ok (tc, kinLoop payload (payload.length / 44) 0)
      else .error .malformedRecord

/-- One estimator invocation (the external InEKF interface). -/
inductive Call where
  | propagate (sample : ImuSample) (dt : ℚ)
  | setContacts (contacts : List (ℤ × Bool))
  | correctKinematics (ks : List KinEntry)
deriving DecidableEq

/-- A classified input line: the numeric values of the tokens after the
tag, or an unrecognized line. -/
inductive Record where
  | imu (toks : List ℚ)
  | contact (toks : List ℚ)
  | kinematic (toks : List ℚ)
  | unknown
deriving DecidableEq

/-- The variables of main that persist across loop iterations (lines
67-70): t, t_prev, imu_measurement, imu_measurement_prev. -/
structure LoopState where
  t : ℚ
  t_prev : ℚ
  imu : ImuSample
  imu_prev : ImuSample
deriving DecidableEq

/-- Initial values before the loop (lines 67-70): zeros. -/
def initState : LoopState := ⟨0, 0, zeroImu, zeroImu⟩

/-- One iteration of the while loop (lines 73-144) on an already
classified record: parse, act (temporal gate and estimator calls), then
the unconditional cache updates `t_prev = t; imu_measurement_prev =
imu_measurement` of lines 142-143.  Returns the successor state and the
estimator calls made, or the parse/assert failure. -/
def step (s : LoopState) (r : Record) : Except ParseErr (LoopState × List Call) :=
  match r with
  | .imu toks =>
      match parseIMU toks with
      | .error e => .error e
      | .ok (tc, sample) =>
          let dt := tc - s.t_prev
          let calls := if DT_MIN < dt ∧ dt < DT_MAX
                       then [Call.propagate s.imu_prev dt] else []
          .ok ({ t := tc, t_prev := tc, imu := sample, imu_prev := sample }, calls)
  | .contact toks =>
      match parseCONTACT toks with
      | .error e => .error e
      | .ok (tc, cs) =>
          .ok ({ s with t := tc, t_prev := tc, imu_prev := s.imu },
               [Call.setContacts cs])
  | .kinematic toks =>
      match parseKINEMATIC toks with
      | .error e => .error e
      | .ok (tc, ks) =>
          .ok ({ s with t := tc, t_prev := tc, imu_prev := s.imu },
               [Call.correctKinematics ks])
  | .unknown => .ok ({ s with t_prev := s.t, imu_prev := s.imu }, [])

/-- Whole-stream run of the while loop, accumulating the call trace. -/
def run (s : LoopState) : List Record → Except ParseErr (LoopState × List Call)
  | [] => .ok (s, [])
  | r :: rs =>
      match step s r with
      | .error e => .error e
      | .ok (s1, cs) =>
          match run s1 rs with
          | .error e => .error e
          | .ok (s2, cs2) => .ok (s2, cs ++ cs2)

/-- The estimator calls one record triggers (empty also on a parse
failure). -/
def traceOf (s : LoopState) (r : Record) : List Call :=
  match step s r with
  | .error _ => []
  | .ok (_, cs) => cs

/-- `boost::split(measurement, line, boost::is_any_of(" "))` (line 75):
split on every space, keeping empty tokens; the empty line yields one
empty token. -/
def splitSpace : List Char → List (List Char)
  | [] => [[]]
  | c :: cs =>
      if c = ' ' then [] :: splitSpace cs
      else
        match splitSpace cs with
        | [] => [[c]]
        | u :: us => (c :: u) :: us

/-- Classification of a token list by its first token (lines 77, 96,
112): the string-to-number conversion is abstracted by conv. -/
def parseLine (conv : String → ℚ) (toks : List String) : Record :=
  match toks with
  | [] => .unknown
  | tg :: rest =>
      if tg = "IMU" then .imu (rest.map conv)
      else if tg = "CONTACT" then .contact (rest.map conv)
      else if tg = "KINEMATIC" then .kinematic (rest.map conv)
      else .unknown

/-- A quaternion with real components, for Eigen's normalize (which
divides by a real square root). -/
structure QuatR where
  w : ℝ
  x : ℝ
  y : ℝ
  z : ℝ

/-- Cast a parsed quaternion to real components. -/
def QuatQ.toR (q : QuatQ) : QuatR := ⟨(q.w : ℝ), (q.x : ℝ), (q.y : ℝ), (q.z : ℝ)⟩

/-- Squared norm of a quaternion. -/
def QuatR.sqNorm (q : QuatR) : ℝ := q.w ^ 2 + q.x ^ 2 + q.y ^ 2 + q.z ^ 2

/-- Eigen `Quaternion::normalize` (line 126): divide the coefficients by
the norm when the squared norm is positive, else leave them unchanged. -/
noncomputable def QuatR.normalize (q : QuatR) : QuatR :=
  if 0 < q.sqNorm then
    ⟨q.w / Real.sqrt q.sqNorm, q.x / Real.sqrt q.sqNorm,
     q.y / Real.sqrt q.sqNorm, q.z / Real.sqrt q.sqNorm⟩
  else q

/-- Eigen `Quaternion::toRotationMatrix` (line 128), the standard
unit-quaternion rotation formula. -/
def QuatR.toRotationMatrix (q : QuatR) : Matrix (Fin 3) (Fin 3) ℝ :=
  !![1 - 2 * (q.y ^ 2 + q.z ^ 2), 2 * (q.x * q.y - q.w * q.z), 2 * (q.x * q.z + q.w * q.y);
     2 * (q.x * q.y + q.w * q.z), 1 - 2 * (q.x ^ 2 + q.z ^ 2), 2 * (q.y * q.z - q.w * q.x);
     2 * (q.x * q.z - q.w * q.y), 2 * (q.y * q.z + q.w * q.x), 1 - 2 * (q.x ^ 2 + q.y ^ 2)]

/-- Lines 118, 126-129: H starts as Identity, takes the normalized
quaternion's rotation in the top-left 3x3 block and the position in the
top-right 3x1 block. -/
noncomputable def poseOf (q : QuatQ) (p : Fin 3 → ℚ) : Matrix (Fin 4) (Fin 4) ℝ :=
  let R := q.toR.normalize.toRotationMatrix
  !![R 0 0, R 0 1, R 0 2, (p 0 : ℝ);
     R 1 0, R 1 1, R 1 2, (p 1 : ℝ);
     R 2 0, R 2 1, R 2 2, (p 2 : ℝ);
     0, 0, 0, 1]

/-- A 44-token KINEMATIC payload: id 7, identity-direction quaternion,
position (1,2,3), zero covariance. -/
def kinExample : List ℚ :=
  [7, 1, 0, 0, 0, 1, 2, 3,
   0, 0, 0, 0, 0, 0, 0, 0, 0, 0, 0, 0, 0, 0, 0, 0, 0, 0,
   0, 0, 0, 0, 0, 0, 0, 0, 0, 0, 0, 0, 0, 0, 0, 0, 0, 0]

/-- A 44-token KINEMATIC payload whose covariance block is the
sequential values 0..35. -/
def covExample : List ℚ :=
  [0, 1, 0, 0, 0, 0, 0, 0,
   0, 1, 2, 3, 4, 5, 6, 7, 8, 9, 10, 11, 12, 13, 14, 15, 16, 17,
   18, 19, 20, 21, 22, 23, 24, 25, 26, 27, 28, 29, 30, 31, 32, 33, 34, 35]

/-- The contact loop emits one pair per two payload tokens. -/
theorem contactPairs_len : ∀ l : List ℚ, (contactPairs l).length = l.length / 2
  | [] => by simp only [contactPairs, List.length_nil]
  | [_] => by simp only [contactPairs, List.length_cons, List.length_nil]
  | _ :: _ :: rest => by
      simp only [contactPairs, List.length_cons, contactPairs_len rest]
      omega

/-- The kinematic loop emits exactly its iteration count of entries. -/
theorem kinLoop_len (m : List ℚ) : ∀ n i, (kinLoop m n i).length = n
  | 0, _ => rfl
  | n + 1, i => by simp [kinLoop, kinLoop_len m n (i + 44)]

/-- A successful IMU parse returns the first token as the timestamp,
followed by a 6-value payload. -/
theorem parseIMU_ts (toks : List ℚ) (tc : ℚ) (sample : ImuSample)
    (h : parseIMU toks = .ok (tc, sample)) :
    ∃ payload, toks = tc :: payload ∧ payload.length = 6 := by
  rcases toks with _ | ⟨t0, _ | ⟨a0, _ | ⟨a1, _ | ⟨a2, _ | ⟨a3, _ | ⟨a4, _ | ⟨a5, _ | ⟨b, rest⟩⟩⟩⟩⟩⟩⟩⟩ <;>
    simp only [parseIMU, Except.ok.injEq, Prod.mk.injEq, reduceCtorEq] at h
  exact ⟨[a0, a1, a2, a3, a4, a5], by rw [h.1], rfl⟩

/-- Every successor state of one loop iteration satisfies t_prev = t and
imu_prev = imu (lines 142-143 run unconditionally). -/
theorem step_fix (s s1 : LoopState) (r : Record) (cs : List Call)
    (h : step s r = .ok (s1, cs)) : s1.t_prev = s1.t ∧ s1.imu_prev = s1.imu := by
  rcases r with toks | toks | toks | _
  · rcases hp : parseIMU toks with e | ⟨tc, sample⟩ <;>
      simp only [step, hp, Except.ok.injEq, Prod.mk.injEq, reduceCtorEq] at h
    rw [← h.1]
    exact ⟨rfl, rfl⟩
  · rcases hp : parseCONTACT toks with e | ⟨tc, cs2⟩ <;>
      simp only [step, hp, Except.ok.injEq, Prod.mk.injEq, reduceCtorEq] at h
    rw [← h.1]
    exact ⟨rfl, rfl⟩
  · rcases hp : parseKINEMATIC toks with e | ⟨tc, ks⟩ <;>
      simp only [step, hp, Except.ok.injEq, Prod.mk.injEq, reduceCtorEq] at h
    rw [← h.1]
    exact ⟨rfl, rfl⟩
  · simp only [step, Except.ok.injEq, Prod.mk.injEq] at h
    rw [← h.1]
    exact ⟨rfl, rfl⟩

/-- Every state reachable by running the loop from a state with
t_prev = t and imu_prev = imu again satisfies both. -/
theorem run_fix : ∀ (rs : List Record) (s0 s : LoopState) (cs : List Call),
    (s0.t_prev = s0.t ∧ s0.imu_prev = s0.imu) → run s0 rs = .ok (s, cs) →
    s.t_prev = s.t ∧ s.imu_prev = s.imu
  | [], s0, s, cs, h0, h => by
      simp only [run, Except.ok.injEq, Prod.mk.injEq] at h
      rw [← h.1]
      exact h0
  | r :: rs, s0, s, cs, h0, h => by
      rcases hs : step s0 r with e | ⟨s1, cs1⟩
      · simp only [run, hs, reduceCtorEq] at h
      · rcases hr : run s1 rs with e | ⟨s2, cs2⟩ <;>
          simp only [run, hs, hr, Except.ok.injEq, Prod.mk.injEq, reduceCtorEq] at h
        rw [← h.1]
        exact run_fix rs s1 s2 cs2 (step_fix s0 s1 r cs1 hs) hr

/-- C1: for an IMU record, Propagate is invoked iff
dt = currentTimestamp - previousTimestamp satisfies 1e-6 < dt < 1; at
the boundary values dt = 0, dt = 1e-6 and dt = 1 no Propagate call is
made. -/
theorem c1_temporal_gate (s : LoopState) (tc a0 a1 a2 a3 a4 a5 : ℚ) :
    ((∃ sp d, Call.propagate sp d ∈ traceOf s (.imu [tc, a0, a1, a2, a3, a4, a5])) ↔
      (DT_MIN < tc - s.t_prev ∧ tc - s.t_prev < DT_MAX)) ∧
    ((tc - s.t_prev = 0 ∨ tc - s.t_prev = DT_MIN ∨ tc - s.t_prev = DT_MAX) →
      traceOf s (.imu [tc, a0, a1, a2, a3, a4, a5]) = []) := by
  constructor
  · simp only [traceOf, step, parseIMU]
    split_ifs with hgate
    · simpa using hgate
    · simpa using hgate
  · intro h
    simp only [traceOf, step, parseIMU]
    split_ifs with hgate
    · exfalso
      rcases h with h | h | h <;> rw [h] at hgate <;>
        simp only [DT_MIN, DT_MAX] at hgate <;> norm_num at hgate
    · rfl

/-- C1 witness: at dt = 1/10 the gate admits exactly one propagate call;
at dt = 0 the trace is empty. -/
theorem c1_temporal_gate_witness :
    ((∃ sp d, Call.propagate sp d ∈ traceOf initState (.imu [1/10, 0, 0, 0, 0, 0, 0])) ↔
      (DT_MIN < 1/10 - initState.t_prev ∧ 1/10 - initState.t_prev < DT_MAX)) ∧
    traceOf initState (.imu [0, 0, 0, 0, 0, 0, 0]) = [] :=
  ⟨(c1_temporal_gate initState (1/10) 0 0 0 0 0 0).1,
   (c1_temporal_gate initState 0 0 0 0 0 0 0).2 (Or.inl (by norm_num [initState]))⟩

/-- C2: an admitted Propagate call carries the IMU sample cached from
the prior iteration (initially the zero sample) together with the
current dt; and after every IMU record the newly parsed sample is
unconditionally cached as the previous sample. -/
theorem c2_delayed_sample (s : LoopState) (tc a0 a1 a2 a3 a4 a5 : ℚ) :
    initState.imu_prev = zeroImu ∧
    ∃ calls, step s (.imu [tc, a0, a1, a2, a3, a4, a5]) =
        .ok ({ t := tc, t_prev := tc, imu := ⟨![a0, a1, a2], ![a3, a4, a5]⟩,
               imu_prev := ⟨![a0, a1, a2], ![a3, a4, a5]⟩ }, calls) ∧
      ((DT_MIN < tc - s.t_prev ∧ tc - s.t_prev < DT_MAX) →
        calls = [Call.propagate s.imu_prev (tc - s.t_prev)]) :=
  ⟨rfl, if DT_MIN < tc - s.t_prev ∧ tc - s.t_prev < DT_MAX
        then [Call.propagate s.imu_prev (tc - s.t_prev)] else [],
   rfl, fun hgate => if_pos hgate⟩

/-- C2 witness: from the initial state, the record IMU 0.1 admits and
propagates the cached zero sample with dt = 0.1. -/
theorem c2_delayed_sample_witness :
    initState.imu_prev = zeroImu ∧
    ∃ calls, step initState (.imu [1/10, 0, 0, 0, 0, 0, 981/100]) =
        .ok ({ t := 1/10, t_prev := 1/10, imu := ⟨![0, 0, 0], ![0, 0, 981/100]⟩,
               imu_prev := ⟨![0, 0, 0], ![0, 0, 981/100]⟩ }, calls) ∧
      ((DT_MIN < 1/10 - initState.t_prev ∧ 1/10 - initState.t_prev < DT_MAX) →
        calls = [Call.propagate initState.imu_prev (1/10 - initState.t_prev)]) :=
  c2_delayed_sample initState (1/10) 0 0 0 0 0 (981/100)

/-- C3: a gate-rejected IMU record raises no error and triggers no
estimator call, yet the previous-timestamp and previous-sample caches
are still overwritten with the current record's timestamp and sample. -/
theorem c3_gate_reject (s : LoopState) (tc a0 a1 a2 a3 a4 a5 : ℚ)
    (h : ¬ (DT_MIN < tc - s.t_prev ∧ tc - s.t_prev < DT_MAX)) :
    step s (.imu [tc, a0, a1, a2, a3, a4, a5]) =
      .ok ({ t := tc, t_prev := tc, imu := ⟨![a0, a1, a2], ![a3, a4, a5]⟩,
             imu_prev := ⟨![a0, a1, a2], ![a3, a4, a5]⟩ }, []) := by
  simp only [step, parseIMU, if_neg h]

/-- C3 witness: two IMU records at the same timestamp (dt = 0): the
second is rejected but still rewrites both caches. -/
theorem c3_gate_reject_witness :
    step { t := 1/2, t_prev := 1/2, imu := zeroImu, imu_prev := zeroImu }
        (.imu [1/2, 0, 0, 0, 0, 0, 1]) =
      .ok ({ t := 1/2, t_prev := 1/2, imu := ⟨![0, 0, 0], ![0, 0, 1]⟩,
             imu_prev := ⟨![0, 0, 0], ![0, 0, 1]⟩ }, []) :=
  c3_gate_reject { t := 1/2, t_prev := 1/2, imu := zeroImu, imu_prev := zeroImu }
    (1/2) 0 0 0 0 0 1 (by norm_num [DT_MIN, DT_MAX])

/-- C4: after handling any record the previous timestamp equals the
current-timestamp variable; for IMU, CONTACT and KINEMATIC records that
variable holds the record's parsed timestamp; an unrecognized record
triggers nothing and only replays the cache updates t_prev = t,
imu_prev = imu. -/
theorem c4_timestamp_cache :
    (∀ (s s1 : LoopState) (r : Record) (cs : List Call),
        step s r = .ok (s1, cs) → s1.t_prev = s1.t) ∧
    (∀ (s s1 : LoopState) (toks : List ℚ) (tc : ℚ) (cs : List Call),
        (toks.headD 0 = tc) →
        (step s (.imu toks) = .ok (s1, cs) ∨ step s (.contact toks) = .ok (s1, cs) ∨
         step s (.kinematic toks) = .ok (s1, cs)) → s1.t_prev = tc) ∧
    (∀ s : LoopState, step s .unknown = .ok ({ s with t_prev := s.t, imu_prev := s.imu }, [])) := by
  refine ⟨fun s s1 r cs h => (step_fix s s1 r cs h).1, ?_, fun s => rfl⟩
  intro s s1 toks tc cs hhead h
  rcases h with h | h | h
  · rcases hp : parseIMU toks with e | ⟨tc2, sample⟩ <;>
      simp only [step, hp, Except.ok.injEq, Prod.mk.injEq, reduceCtorEq] at h
    obtain ⟨payload, hts, -⟩ := parseIMU_ts toks tc2 sample hp
    rw [← h.1]
    rw [hts] at hhead
    simpa using hhead
  · rcases hp : parseCONTACT toks with e | ⟨tc2, cs2⟩ <;>
      simp only [step, hp, Except.ok.injEq, Prod.mk.injEq, reduceCtorEq] at h
    rcases toks with _ | ⟨t0, payload⟩
    · simp only [parseCONTACT, reduceCtorEq] at hp
    · simp only [parseCONTACT] at hp
      split_ifs at hp with hl
      simp only [Except.ok.injEq, Prod.mk.injEq] at hp
      rw [← h.1]
      simp only [List.headD_cons] at hhead
      rw [hp.1] at hhead
      simp [hhead]
  · rcases hp : parseKINEMATIC toks with e | ⟨tc2, ks⟩ <;>
      simp only [step, hp, Except.ok.injEq, Prod.mk.injEq, reduceCtorEq] at h
    rcases toks with _ | ⟨t0, payload⟩
    · simp only [parseKINEMATIC, reduceCtorEq] at hp
    · simp only [parseKINEMATIC] at hp
      split_ifs at hp with hl
      simp only [Except.ok.injEq, Prod.mk.injEq] at hp
      rw [← h.1]
      simp only [List.headD_cons] at hhead
      rw [hp.1] at hhead
      simp [hhead]

/-- C4 witness: a rejected IMU record at t = 2 still sets t_prev to 2,
and an unrecognized record only replays the cache updates. -/
theorem c4_timestamp_cache_witness :
    ({ t := (2 : ℚ), t_prev := 2, imu := ⟨![0, 0, 0], ![0, 0, 0]⟩,
       imu_prev := ⟨![0, 0, 0], ![0, 0, 0]⟩ } : LoopState).t_prev = 2 ∧
    step initState .unknown = .ok (initState, []) :=
  ⟨c4_timestamp_cache.2.1 initState
      { t := 2, t_prev := 2, imu := ⟨![0, 0, 0], ![0, 0, 0]⟩,
        imu_prev := ⟨![0, 0, 0], ![0, 0, 0]⟩ }
      [2, 0, 0, 0, 0, 0, 0] 2 [] rfl
      (Or.inl (by norm_num [step, parseIMU, initState, DT_MIN, DT_MAX])),
   c4_timestamp_cache.2.2 initState⟩

/-- A squared norm is a sum of squares, hence nonnegative. -/
theorem sqNorm_nonneg (q : QuatR) : 0 ≤ q.sqNorm := by
  unfold QuatR.sqNorm
  positivity

/-- Normalizing a quaternion of nonzero norm yields a unit quaternion. -/
theorem normalize_unit (q : QuatR) (h : q.sqNorm ≠ 0) : q.normalize.sqNorm = 1 := by
  have hnn : 0 ≤ q.sqNorm := sqNorm_nonneg q
  have hpos : 0 < q.sqNorm := lt_of_le_of_ne hnn (Ne.symm h)
  have hs : Real.sqrt q.sqNorm ≠ 0 := by positivity
  unfold QuatR.normalize
  rw [if_pos hpos]
  show (q.w / Real.sqrt q.sqNorm) ^ 2 + (q.x / Real.sqrt q.sqNorm) ^ 2 +
       (q.y / Real.sqrt q.sqNorm) ^ 2 + (q.z / Real.sqrt q.sqNorm) ^ 2 = 1
  field_simp
  rfl

/-- The quaternion (1,0,0,0) is already normalized. -/
theorem normalize_wOne : QuatR.normalize ⟨1, 0, 0, 0⟩ = ⟨1, 0, 0, 0⟩ := by
  unfold QuatR.normalize QuatR.sqNorm
  norm_num

/-- The pose rebuilt from quaternion (1,0,0,0) and position (1,2,3). -/
theorem poseOf_wOne :
    poseOf ⟨1, 0, 0, 0⟩ ![1, 2, 3] = !![1,0,0,1; 0,1,0,2; 0,0,1,3; 0,0,0,1] := by
  unfold poseOf
  have ht : QuatQ.toR ⟨1, 0, 0, 0⟩ = ⟨1, 0, 0, 0⟩ := by
    unfold QuatQ.toR
    norm_num
  rw [ht, normalize_wOne]
  unfold QuatR.toRotationMatrix
  ext i j
  fin_cases i <;> fin_cases j <;> simp [Matrix.vecHead, Matrix.vecTail]

/-- C5: an IMU line parses successfully exactly when the payload after
tag and timestamp has length 6, mapping the six values positionally to
angular velocity then linear acceleration; any other shape fails with
MalformedRecordError. -/
theorem c5_imu_arity :
    (∀ tc a0 a1 a2 a3 a4 a5 : ℚ,
        parseIMU [tc, a0, a1, a2, a3, a4, a5] =
          .ok (tc, ⟨![a0, a1, a2], ![a3, a4, a5]⟩)) ∧
    parseIMU [] = .error .malformedRecord ∧
    (∀ (tc : ℚ) (payload : List ℚ), payload.length ≠ 6 →
        parseIMU (tc :: payload) = .error .malformedRecord) := by
  refine ⟨fun tc a0 a1 a2 a3 a4 a5 => rfl, rfl, ?_⟩
  intro tc payload h
  rcases payload with _ | ⟨a0, _ | ⟨a1, _ | ⟨a2, _ | ⟨a3, _ | ⟨a4, _ | ⟨a5, _ | ⟨b, rest⟩⟩⟩⟩⟩⟩⟩ <;>
    first
      | rfl
      | exact absurd rfl h

/-- C5 witness: a 2-value payload fails; a 6-value payload succeeds
with the positional mapping. -/
theorem c5_imu_arity_witness :
    parseIMU [0, 1, 2] = .error .malformedRecord ∧
    parseIMU [0, 1, 2, 3, 4, 5, 6] = .ok (0, ⟨![1, 2, 3], ![4, 5, 6]⟩) :=
  ⟨c5_imu_arity.2.2 0 [1, 2] (by decide),
   c5_imu_arity.1 0 1 2 3 4 5 6⟩

/-- C6: a CONTACT line with even payload length 2n parses to exactly n
(id, indicator) pairs in input order and is forwarded verbatim in a
single setContacts call; odd payload length fails. -/
theorem c6_contact_pairs (s : LoopState) (tc : ℚ) (payload : List ℚ) :
    (payload.length % 2 = 0 →
       parseCONTACT (tc :: payload) = .ok (tc, contactPairs payload) ∧
       (contactPairs payload).length = payload.length / 2 ∧
       step s (.contact (tc :: payload)) =
         .ok ({ s with t := tc, t_prev := tc, imu_prev := s.imu },
              [Call.setContacts (contactPairs payload)])) ∧
    (payload.length % 2 ≠ 0 → parseCONTACT (tc :: payload) = .error .malformedRecord) ∧
    (∀ (cid ind : ℚ) (rest : List ℚ),
        contactPairs (cid :: ind :: rest) =
          (ratTrunc cid, decide (ind ≠ 0)) :: contactPairs rest) := by
  refine ⟨?_, ?_, fun cid ind rest => rfl⟩
  · intro h
    refine ⟨?_, contactPairs_len payload, ?_⟩
    · simp only [parseCONTACT, if_pos h]
    · simp only [step, parseCONTACT, if_pos h]
  · intro h
    simp only [parseCONTACT, if_neg h]

/-- C6 witness: CONTACT 1.0 0 1 1 0 parses to [(0,true),(1,false)] and
is forwarded in one setContacts call; a 3-value payload fails. -/
theorem c6_contact_pairs_witness :
    (parseCONTACT [1, 0, 1, 1, 0] = .ok (1, contactPairs [0, 1, 1, 0]) ∧
     (contactPairs [0, 1, 1, 0]).length = [0, 1, 1, 0].length / 2 ∧
     step initState (.contact [1, 0, 1, 1, 0]) =
       .ok ({ initState with t := 1, t_prev := 1, imu_prev := initState.imu },
            [Call.setContacts (contactPairs [0, 1, 1, 0])])) ∧
    parseCONTACT [1, 0, 1, 1] = .error .malformedRecord ∧
    contactPairs [0, 1, 1, 0] = [(0, true), (1, false)] :=
  ⟨(c6_contact_pairs initState 1 [0, 1, 1, 0]).1 (by decide),
   (c6_contact_pairs initState 1 [0, 1, 1]).2.1 (by decide),
   by norm_num [contactPairs, ratTrunc]⟩

/-- C9: the parsed inContact indicator is true iff the numeric value of
the indicator token is nonzero; 2.5 and -1 count as contact, 0 does
not. -/
theorem c9_contact_indicator :
    (∀ (cid ind : ℚ) (rest : List ℚ),
        ((contactPairs (cid :: ind :: rest)).headD (0, false)).2 = true ↔ ind ≠ 0) ∧
    parseCONTACT [1, 0, 5/2, 1, -1, 2, 0] =
      .ok (1, [(0, true), (1, true), (2, false)]) := by
  constructor
  · intro cid ind rest
    simp [contactPairs]
  · norm_num [parseCONTACT, contactPairs, ratTrunc]

/-- C8: each kinematic entry's 6by6 covariance entry (j,k) is taken from
payload offset 8 + j*6 + k relative to the entry start; for the
covariance block 0..35 the rebuilt matrix at (2,3) is 15. -/
theorem c8_cov_rowmajor :
    (∀ (m : List ℚ) (i : ℕ) (j k : Fin 6),
        (kinEntry m i).cov j k = tok m (i + 8 + j.1 * 6 + k.1)) ∧
    (∃ e, parseKINEMATIC (0 :: covExample) = .ok (0, [e]) ∧
       e.cov ⟨2, by omega⟩ ⟨3, by omega⟩ = 15) := by
  exact ⟨fun m i j k => rfl, kinEntry covExample 0, rfl, rfl⟩

/-- C7: a KINEMATIC line with payload length 44n parses to exactly n
observations; the quaternion of any entry is normalized to unit norm
(for any nonzero input scale); the entry with quaternion 1 0 0 0 and
position 1 2 3 rebuilds the pose with identity rotation, translation
(1,2,3) and identity bottom row. -/
theorem c7_kinematic_obs (tc : ℚ) (payload : List ℚ)
    (h : payload.length % 44 = 0) (qr : QuatR) (hq : qr.sqNorm ≠ 0) :
    parseKINEMATIC (tc :: payload) =
      .ok (tc, kinLoop payload (payload.length / 44) 0) ∧
    (kinLoop payload (payload.length / 44) 0).length = payload.length / 44 ∧
    qr.normalize.sqNorm = 1 ∧
    (∃ e, parseKINEMATIC (0 :: kinExample) = .ok (0, [e]) ∧
       e.q = ⟨1, 0, 0, 0⟩ ∧ e.p = ![1, 2, 3] ∧
       poseOf e.q e.p = !![1,0,0,1; 0,1,0,2; 0,0,1,3; 0,0,0,1]) := by
  refine ⟨by simp only [parseKINEMATIC, if_pos h],
          kinLoop_len payload (payload.length / 44) 0,
          normalize_unit qr hq,
          kinEntry kinExample 0, rfl, rfl, rfl, ?_⟩
  have hq0 : (kinEntry kinExample 0).q = ⟨1, 0, 0, 0⟩ := rfl
  have hp0 : (kinEntry kinExample 0).p = ![1, 2, 3] := rfl
  rw [hq0, hp0]
  exact poseOf_wOne

/-- C7 witness: a concrete 44-token payload parses to one observation,
and the quaternion (2,0,0,0) normalizes to unit norm. -/
theorem c7_kinematic_obs_witness :
    parseKINEMATIC ((0 : ℚ) :: kinExample) =
      .ok (0, kinLoop kinExample (kinExample.length / 44) 0) ∧
    (kinLoop kinExample (kinExample.length / 44) 0).length = kinExample.length / 44 ∧
    (QuatR.normalize ⟨2, 0, 0, 0⟩).sqNorm = 1 ∧
    (∃ e, parseKINEMATIC (0 :: kinExample) = .ok (0, [e]) ∧
       e.q = ⟨1, 0, 0, 0⟩ ∧ e.p = ![1, 2, 3] ∧
       poseOf e.q e.p = !![1,0,0,1; 0,1,0,2; 0,0,1,3; 0,0,0,1]) :=
  c7_kinematic_obs 0 kinExample (by norm_num [kinExample])
    ⟨2, 0, 0, 0⟩ (by norm_num [QuatR.sqNorm])

/-- Splitting never yields an empty token list. -/
theorem splitSpace_ne_nil : ∀ line : List Char, splitSpace line ≠ []
  | [] => by simp [splitSpace]
  | c :: cs => by
      simp only [splitSpace]
      split_ifs
      · simp
      · cases h : splitSpace cs <;> simp

/-- C10: whitespace splitting of any line, the empty line included,
yields at least one token, so inspecting token 0 is in bounds; a line
whose first token matches none of IMU, CONTACT, KINEMATIC classifies as
unknown, and handling it from any reachable loop state triggers no
estimator call and leaves the previous-timestamp and previous-sample
cache values unchanged. -/
theorem c10_split_unknown :
    (∀ line : List Char, 1 ≤ (splitSpace line).length) ∧
    (∀ (conv : String → ℚ) (tg : String) (rest : List String),
        tg ≠ "IMU" → tg ≠ "CONTACT" → tg ≠ "KINEMATIC" →
        parseLine conv (tg :: rest) = .unknown) ∧
    (∀ (recs : List Record) (s : LoopState) (cs : List Call),
        run initState recs = .ok (s, cs) → step s .unknown = .ok (s, [])) := by
  refine ⟨?_, ?_, ?_⟩
  · intro line
    exact List.length_pos.mpr (splitSpace_ne_nil line)
  · intro conv tg rest h1 h2 h3
    simp only [parseLine, if_neg h1, if_neg h2, if_neg h3]
  · intro recs s cs hrun
    obtain ⟨h1, h2⟩ := run_fix recs initState s cs ⟨rfl, rfl⟩ hrun
    cases s with
    | mk t tp im imp =>
      dsimp only at h1 h2
      subst h1
      subst h2
      rfl

/-- C10 witness: an unrecognized line is classified unknown and, after
the empty run, handling it returns the initial state unchanged with no
calls. -/
theorem c10_split_unknown_witness :
    1 ≤ (splitSpace []).length ∧
    parseLine (fun _ => 0) ["FOO", "1.0"] = .unknown ∧
    step initState .unknown = .ok (initState, []) :=
  ⟨c10_split_unknown.1 [],
   c10_split_unknown.2.1 (fun _ => 0) "FOO" ["1.0"] (by decide) (by decide) (by decide),
   c10_split_unknown.2.2 [] initState [] rfl⟩

end KinDriver
